import Mathlib

/-!
Verification of the SentinelGo-Updater core against its specification.

The definitions below are a shallow embedding of the Go sources:
  - internal/updater/updater.go (version comparison, update orchestration,
    backup/rollback, verification loop, installed-version probing),
  - internal/service/manager_windows.go and the Linux service manager
    (Stop/Uninstall behavior),
  - the binary path detector (BinaryDetector.DetectBinaryPath and its
    caching and strategy chain).

Pure Go string manipulation is translated to structurally recursive
functions on character lists.  Filesystem state is an association list from
path to byte contents; external effects (service-manager commands, the
compile step, process probing) are supplied as explicit environment values,
matching the points where the Go code calls out of process.
-/

/-! ## Go string primitives -/

/-- Character-list translation of Go `strings.Split(s, ".")`:
splitting the empty string yields one empty segment, and every separator
starts a new segment. -/
def splitDotL : List Char → List (List Char)
  | [] => [[]]
  | '.' :: rest => [] :: splitDotL rest
  | c :: rest =>
    match splitDotL rest with
    | seg :: segs => (c :: seg) :: segs
    | [] => [[c]]

/-- Character-list translation of splitting on whitespace (every whitespace
character starts a new segment; used to build `strings.Fields`). -/
def splitWsL : List Char → List (List Char)
  | [] => [[]]
  | c :: rest =>
    if c.isWhitespace then [] :: splitWsL rest
    else
      match splitWsL rest with
      | seg :: segs => (c :: seg) :: segs
      | [] => [[c]]

/-- Translation of Go `strings.Fields`: the maximal nonempty runs of
non-whitespace characters. -/
def fieldsL (cs : List Char) : List (List Char) :=
  (splitWsL cs).filter (fun seg => !seg.isEmpty)

/-- Translation of Go `strings.TrimSpace` on a character list. -/
def trimL (cs : List Char) : List Char :=
  ((cs.dropWhile (fun c => c.isWhitespace)).reverse.dropWhile
    (fun c => c.isWhitespace)).reverse

/-- Prefix test on character lists: `listHasPrefixL s sub` holds when `sub`
is an initial segment of `s`. -/
def listHasPrefixL : List Char → List Char → Bool
  | _, [] => true
  | [], _ :: _ => false
  | c :: cs, d :: ds => if d = c then listHasPrefixL cs ds else false

/-- Substring test on character lists, scanning every suffix. -/
def listContainsL : List Char → List Char → Bool
  | [], sub => sub.isEmpty
  | c :: rest, sub => listHasPrefixL (c :: rest) sub || listContainsL rest sub

/-- Translation of Go `strings.Contains s sub`. -/
def goContains (s sub : String) : Bool :=
  listContainsL s.data sub.data

/-- Translation of Go `strings.TrimPrefix(s, "v")`: drop one leading 'v'
when present. -/
def goTrimPrefixV (s : String) : String :=
  match s.data with
  | 'v' :: rest => String.mk rest
  | _ => s

/-- Numeric value of a digit run. -/
def digitsToNat (ds : List Char) : Nat :=
  ds.foldl (fun acc c => acc * 10 + (c.toNat - 48)) 0

/-- Leading decimal-digit run of a character list, if nonempty. -/
def decLead (cs : List Char) : Option Nat :=
  let ds := cs.takeWhile (fun c => c.isDigit)
  if ds.isEmpty then none else some (digitsToNat ds)

/-- Translation of `fmt.Sscanf(s, "%d", &num)` as used by `parseVersion`:
skip leading whitespace, read an optional sign and a digit run; when no
digit can be read the target is left at its zero value. -/
def sscanfDL (cs : List Char) : Int :=
  let cs := cs.dropWhile (fun c => c.isWhitespace)
  match cs with
  | '-' :: rest =>
    match decLead rest with
    | some n => -(n : Int)
    | none => 0
  | '+' :: rest =>
    match decLead rest with
    | some n => (n : Int)
    | none => 0
  | _ =>
    match decLead cs with
    | some n => (n : Int)
    | none => 0

/-! ## Version comparison (updater.go: parseVersion, isNewerVersion) -/

/-- Segment i of a dot-separated version, scanned as by `parseVersion`'s
loop; indices past the last segment keep the zero value. -/
def segGet (segs : List (List Char)) (i : Nat) : Int :=
  match segs.get? i with
  | some s => sscanfDL s
  | none => 0

/-- Translation of `parseVersion`: split on '.' and scan the first three
segments with `%d`, missing segments staying 0. -/
def parseVersion (version : String) : Int × Int × Int :=
  let segs := splitDotL version.data
  (segGet segs 0, segGet segs 1, segGet segs 2)

/-- The comparison loop of `isNewerVersion`, unrolled over the
(major, minor, patch) triple: left-to-right, short-circuiting on the first
unequal component, `false` when all three are equal. -/
def tripleNewer (cur lat : Int × Int × Int) : Bool :=
  if lat.1 > cur.1 then true
  else if lat.1 < cur.1 then false
  else if lat.2.1 > cur.2.1 then true
  else if lat.2.1 < cur.2.1 then false
  else if lat.2.2 > cur.2.2 then true
  else if lat.2.2 < cur.2.2 then false
  else false

/-- Translation of `isNewerVersion`: trim a leading 'v' from both
arguments, short-circuit to `false` on identical strings, then compare the
parsed triples. -/
def isNewerVersion (current latest : String) : Bool :=
  let c := goTrimPrefixV current
  let l := goTrimPrefixV latest
  if c = l then false
  else tripleNewer (parseVersion c) (parseVersion l)

theorem tripleNewer_self (x : Int × Int × Int) : tripleNewer x x = false := by
  obtain ⟨a, b, c⟩ := x
  simp [tripleNewer]

theorem isNewerVersion_eq_tripleNewer (c l : String) :
    isNewerVersion c l =
      tripleNewer (parseVersion (goTrimPrefixV c)) (parseVersion (goTrimPrefixV l)) := by
  by_cases h : goTrimPrefixV c = goTrimPrefixV l
  · simp [isNewerVersion, h, tripleNewer_self]
  · simp [isNewerVersion, h]

theorem goTrimPrefixV_vappend (s : String) : goTrimPrefixV ("v" ++ s) = s := by
  cases s with
  | mk data => rfl

/-! ## Installed-version probing (updater.go: getInstalledVersion) -/

/-- Token test from `getInstalledVersion`'s extraction loop:
`len(part) > 1 && part[0] == 'v' && part[1] >= '0' && part[1] <= '9'`. -/
def isVersionToken (part : List Char) : Bool :=
  match part with
  | 'v' :: d :: _ => d.isDigit
  | _ => false

/-- External observations made by one `getInstalledVersion` call, in program
order: the detector result, whether the detected binary exists, and the
result of running the binary with the version-report argument. -/
structure VersionEnv where
  detectRes : Except String String
  binaryExists : Bool
  cmdOutput : Except String String

/-- Translation of `getInstalledVersion`: fail when detection fails, the
binary is missing, the invocation fails, or the trimmed output is empty;
otherwise return the first whitespace-separated token that starts with 'v'
followed by a digit, falling back to the whole trimmed output.  Logging and
the cache-invalidation side effects are elided. -/
def getInstalledVersion (env : VersionEnv) : Except String String :=
  match env.detectRes with
  | .error e => .error ("binary path detection failed: " ++ e)
  | .ok _ =>
    if env.binaryExists = false then .error "main agent binary not found"
    else
      match env.cmdOutput with
      | .error e => .error ("failed to get version from binary: " ++ e)
      | .ok output =>
        let version := trimL output.data
        if version.isEmpty then .error "binary returned empty version"
        else
          match (fieldsL version).find? isVersionToken with
          | some part => .ok (String.mk part)
          | none => .ok (String.mk version)

/-! ## Service managers (manager_windows.go, the Linux manager) -/

/-- Result of one `exec.Command(...).CombinedOutput()` call: the combined
output text and whether the command exited with an error. -/
structure CmdResult where
  output : String
  failed : Bool

/-- Translation of `windowsManager.Stop`: a failed `sc.exe stop` whose
output mentions error 1060 or "does not exist" is treated as success. -/
def windowsStop (serviceName : String) (r : CmdResult) : Except String Unit :=
  if r.failed then
    if goContains r.output "1060" || goContains r.output "does not exist" then .ok ()
    else .error ("failed to stop service " ++ serviceName)
  else .ok ()

/-- Translation of `windowsManager.Uninstall`: a failed `sc.exe delete`
whose output mentions error 1060 or "does not exist" is treated as
success. -/
def windowsUninstall (serviceName : String) (r : CmdResult) : Except String Unit :=
  if r.failed then
    if goContains r.output "1060" || goContains r.output "does not exist" then .ok ()
    else .error ("failed to delete service " ++ serviceName)
  else .ok ()

/-- Translation of `linuxManager.Stop`: any failure of `systemctl stop` is
returned as an error, with no special case for an absent service. -/
def linuxStop (serviceName : String) (r : CmdResult) : Except String Unit :=
  if r.failed then .error ("failed to stop service " ++ serviceName)
  else .ok ()

/-- Translation of `linuxManager.Uninstall`: a failed `systemctl disable`
is returned as an error (no absent-service special case); then the unit
file is removed (absence tolerated) and the daemon reloaded. -/
def linuxUninstall (serviceName : String) (disableRes : CmdResult)
    (removeUnitFileOk reloadOk : Bool) : Except String Unit :=
  if disableRes.failed then .error ("failed to disable service " ++ serviceName)
  else if removeUnitFileOk = false then .error ("failed to remove service file for " ++ serviceName)
  else if reloadOk = false then .error "failed to reload systemd daemon"
  else .ok ()

/-- The combined output `systemctl stop` produces for a unit that is not
registered; the command exits nonzero (standard systemd behavior). -/
def systemctlStopUnitNotLoaded : CmdResult :=
  { output := "Failed to stop sentinelgo.service: Unit sentinelgo.service not loaded."
    failed := true }

/-- The combined output `systemctl disable` produces for a unit that is not
registered; the command exits nonzero (standard systemd behavior). -/
def systemctlDisableUnitMissing : CmdResult :=
  { output := "Failed to disable unit: Unit file sentinelgo.service does not exist."
    failed := true }

/-- The combined output `sc.exe stop` produces for a service that does not
exist (error 1060); the command exits nonzero. -/
def scStopServiceMissing : CmdResult :=
  { output := "[SC] OpenService FAILED 1060: The specified service does not exist as an installed service."
    failed := true }

/-! ## Binary path detector (BinaryDetector.DetectBinaryPath) -/

/-- Stat information for one filesystem entry, as consulted by
`validateBinaryPathWithDetails`. -/
structure FileMeta where
  isDir : Bool
  exec : Bool
deriving DecidableEq

/-- Filesystem view used by the detector: paths with their stat metadata. -/
abbrev DetectFS := List (String × FileMeta)

/-- Lookup of one path's stat metadata. -/
def statD : DetectFS → String → Option FileMeta
  | [], _ => none
  | (q, m) :: rest, p => if p = q then some m else statD rest p

/-- Translation of `validateBinaryPathWithDetails` (non-Windows build):
reject the empty path, a missing file, a directory, and a file without an
execute bit; `none` means the path is valid. -/
def validateBinaryPathWithDetails (fs : DetectFS) (path : String) : Option String :=
  if path = "" then some "path is empty"
  else
    match statD fs path with
    | none => some "file does not exist"
    | some info =>
      if info.isDir then some "path is a directory, not a file"
      else if info.exec = false then some "file is not executable (missing execute permissions)"
      else none

/-- Translation of `validateBinaryPath`. -/
def validateBinaryPath (fs : DetectFS) (path : String) : Bool :=
  (validateBinaryPathWithDetails fs path).isNone

/-- Translation of the `DetectionError` record built for each failed
strategy. -/
structure DetectionError where
  method : String
  description : String
  errorMsg : String
  attempted : Bool
  pathFound : String
deriving DecidableEq

/-- Content of the aggregate report `generateDetailedError` renders when
every strategy fails: the per-strategy diagnostics plus the searched
locations it lists. -/
structure DetectReport where
  strategyFailures : List DetectionError
  searchedCommonPaths : List String
  searchedPathDirs : List String
deriving DecidableEq

/-- Detector state: the cached path (empty string means no cache, as in the
source) and the optional manual-override path from the configuration
file. -/
structure BinaryDetector where
  cachedPath : String
  configPath : String
deriving DecidableEq

/-- Environment of one `DetectBinaryPath` call: the outcome each detection
strategy would report, plus the location lists the detailed error
enumerates. -/
structure DetectEnv where
  serviceConfig : Except String String
  runningProcess : Except String String
  pathSearch : Except String String
  commonPathsScan : Except String String
  commonPathsList : List String
  pathDirs : List String

/-- The strategy table of `DetectBinaryPath`, in source order: name,
description, and the strategy outcome. -/
def strategyList (env : DetectEnv) : List (String × String × Except String String) :=
  [("service_config", "System service configuration", env.serviceConfig),
   ("running_process", "Running process detection", env.runningProcess),
   ("path_search", "PATH environment variable", env.pathSearch),
   ("common_paths", "Common installation directories", env.commonPathsScan)]

/-- One iteration of the strategy loop: a strategy error or a validation
failure yields the `DetectionError` the source records; a validated path
is returned. -/
def stratDiag (fs : DetectFS) (name desc : String) (res : Except String String) :
    Except DetectionError String :=
  match res with
  | .error e =>
    .error { method := name, description := desc, errorMsg := e,
             attempted := true, pathFound := "" }
  | .ok path =>
    match validateBinaryPathWithDetails fs path with
    | some verr =>
      .error { method := name, description := desc,
               errorMsg := "path validation failed: " ++ verr,
               attempted := true, pathFound := path }
    | none => .ok path

/-- The strategy loop of `DetectBinaryPath`: walk the table in order,
accumulating diagnostics, stopping at the first validated path.  Also
returns the names of the strategies that were executed. -/
def runStrategies (fs : DetectFS) :
    List (String × String × Except String String) → List DetectionError →
    Except (List DetectionError) String × List String
  | [], acc => (.error acc, [])
  | s :: rest, acc =>
    match stratDiag fs s.1 s.2.1 s.2.2 with
    | .ok path => (.ok path, [s.1])
    | .error d =>
      let r := runStrategies fs rest (acc ++ [d])
      (r.1, s.1 :: r.2)

/-- Auto-detection tail of `DetectBinaryPath`: run the strategy loop,
cache a winning path, or aggregate every diagnostic with the searched
locations into the detailed report. -/
def autoDetect (d : BinaryDetector) (fs : DetectFS) (env : DetectEnv) :
    Except DetectReport String × BinaryDetector × List String :=
  match runStrategies fs (strategyList env) [] with
  | (.ok p, run) => (.ok p, { d with cachedPath := p }, run)
  | (.error errs, run) =>
    (.error { strategyFailures := errs,
              searchedCommonPaths := env.commonPathsList,
              searchedPathDirs := env.pathDirs }, d, run)

/-- Manual-override step of `DetectBinaryPath`: a configured path is
validated; when valid it is cached and returned, when invalid (or absent)
detection falls through to the strategies. -/
def detectNoCache (d : BinaryDetector) (fs : DetectFS) (env : DetectEnv) :
    Except DetectReport String × BinaryDetector × List String :=
  if d.configPath = "" then autoDetect d fs env
  else if validateBinaryPath fs d.configPath then
    (.ok d.configPath, { d with cachedPath := d.configPath }, [])
  else autoDetect d fs env

/-- Translation of `DetectBinaryPath`: a cached path is validated first and
returned on success; a stale cache is invalidated before falling through.
The third component lists the detection strategies that were executed. -/
def detectBinaryPath (d : BinaryDetector) (fs : DetectFS) (env : DetectEnv) :
    Except DetectReport String × BinaryDetector × List String :=
  if d.cachedPath = "" then detectNoCache d fs env
  else if validateBinaryPath fs d.cachedPath then (.ok d.cachedPath, d, [])
  else detectNoCache { d with cachedPath := "" } fs env

/-- Specification-side description of the Resolve contract, written from
the spec's words for comparison with `detectBinaryPath`: take the first
strategy outcome that passed validation; when all fail, keep every
diagnostic in order. -/
def specResolve : List (Except DetectionError String) → Except (List DetectionError) String
  | [] => .error []
  | .ok p :: _ => .ok p
  | .error e :: rest =>
    match specResolve rest with
    | .ok p => .ok p
    | .error es => .error (e :: es)

/-- Number of strategies the spec's description attempts: everything up to
and including the first success. -/
def specAttemptCount : List (Except DetectionError String) → Nat
  | [] => 0
  | .ok _ :: _ => 1
  | .error _ :: rest => specAttemptCount rest + 1

/-! ## Update orchestrator (updater.go: performUpdate and its steps) -/

/-- File contents. -/
abbrev Bytes := List Nat

/-- Filesystem state: an association list from path to byte contents. -/
abbrev FSys := List (String × Bytes)

/-- Contents at a path. -/
def fsGet : FSys → String → Option Bytes
  | [], _ => none
  | (q, d) :: rest, p => if p = q then some d else fsGet rest p

/-- Create-or-truncate write, as `os.WriteFile`. -/
def fsWrite : FSys → String → Bytes → FSys
  | [], p, d => [(p, d)]
  | (q, e) :: rest, p, d =>
    if p = q then (q, d) :: rest else (q, e) :: fsWrite rest p d

/-- Deletion, as a successful `os.Remove`. -/
def fsRemove : FSys → String → FSys
  | [], _ => []
  | (q, e) :: rest, p =>
    if p = q then fsRemove rest p else (q, e) :: fsRemove rest p

/-- Existence check, as `os.Stat` succeeding. -/
def fsExists (fs : FSys) (p : String) : Bool :=
  (fsGet fs p).isSome

/-- Translation of the `BackupInfo` record: version, backup file path and
creation timestamp.  The source records no original binary path. -/
structure BackupInfo where
  version : String
  backupPath : String
  timestamp : Nat

/-- Translation of `createBackup`: resolve-time binary path is supplied by
the caller (the source calls `paths.GetMainAgentBinaryPath()` here); the
binary's bytes are copied to `binaryPath + ".backup"` and the backup record
is returned. -/
def createBackup (fs : FSys) (binaryPath currentVersion : String) :
    Except String (FSys × BackupInfo) :=
  let backupPath := binaryPath ++ ".backup"
  match fsGet fs binaryPath with
  | none => .error "current binary not found"
  | some data =>
    .ok (fsWrite fs backupPath data,
         { version := currentVersion, backupPath := backupPath, timestamp := 0 })

/-- Translation of `cleanupOldFiles`: delete the resolved binary and the
legacy `<binaryPath>.old` artifact (absence tolerated), never touching
`<binaryPath>.backup`; `binRemoveOk`/`oldRemoveOk` inject `os.Remove`
failures.  The second component reports whether any deletion failed. -/
def cleanupOldFiles (fs : FSys) (binaryPath : String) (binRemoveOk oldRemoveOk : Bool) :
    FSys × Bool :=
  let step1 : FSys × Bool :=
    if fsExists fs binaryPath then
      (if binRemoveOk then (fsRemove fs binaryPath, false) else (fs, true))
    else (fs, false)
  let oldPath := binaryPath ++ ".old"
  let step2 : FSys × Bool :=
    if fsExists step1.1 oldPath then
      (if oldRemoveOk then (fsRemove step1.1 oldPath, false) else (step1.1, true))
    else (step1.1, false)
  (step2.1, step1.2 || step2.2)

/-- Translation of `installBinary`: copy the compiled binary's bytes to the
resolve-time target path (permissions and ownership elided). -/
def installBinary (fs : FSys) (sourcePath targetPath : String) : Except String FSys :=
  match fsGet fs sourcePath with
  | none => .error "failed to read source binary"
  | some data => .ok (fsWrite fs targetPath data)

/-- The `maxRetries` constant of `verifyMainAgentRunning`. -/
def maxRetries : Nat := 3

/-- The `retryDelay` constant of `verifyMainAgentRunning`, in seconds. -/
def retryDelaySeconds : Nat := 2

/-- Observable outcome of one `verifyMainAgentRunning` call: its result,
how many `IsRunning` polls it made, and how many delays it slept. -/
structure VerifyRun where
  result : Except String Unit
  pollCount : Nat
  sleepCount : Nat

/-- The retry loop of `verifyMainAgentRunning`; `attempt` is the 1-based
loop counter and `left` the attempts remaining including the current one.
A poll error or a "not running" answer retries after one delay unless this
was the last attempt. -/
def verifyAux (polls : Nat → Except String Bool) : Nat → Nat → VerifyRun
  | _, 0 => { result := .error "no verification attempts", pollCount := 0, sleepCount := 0 }
  | attempt, left + 1 =>
    match polls attempt with
    | .ok true => { result := .ok (), pollCount := 1, sleepCount := 0 }
    | .ok false =>
      if left = 0 then
        { result := .error "service not running after 3 verification attempts",
          pollCount := 1, sleepCount := 0 }
      else
        let r := verifyAux polls (attempt + 1) left
        { result := r.result, pollCount := r.pollCount + 1, sleepCount := r.sleepCount + 1 }
    | .error e =>
      if left = 0 then
        { result := .error ("failed to check service status after 3 attempts: " ++ e),
          pollCount := 1, sleepCount := 0 }
      else
        let r := verifyAux polls (attempt + 1) left
        { result := r.result, pollCount := r.pollCount + 1, sleepCount := r.sleepCount + 1 }

/-- Translation of `verifyMainAgentRunning`, with the successive
`IsRunning` answers supplied as `polls`. -/
def verifyMainAgentRunning (polls : Nat → Except String Bool) : VerifyRun :=
  verifyAux polls 1 maxRetries

/-- External observations of one `performUpdate` attempt, in program order.
Each `resolveAt*` field is the value `paths.GetMainAgentBinaryPath()`
returns at that call site; they are separate because the resolver's cache
is invalidated mid-attempt, so successive resolutions may differ. -/
structure UpdEnv where
  preflightOk : Bool
  currentVersion : String
  resolveAtBackup : String
  stopRes : Except String Unit
  uninstallRes : Except String Unit
  resolveAtCleanup : String
  binRemoveOk : Bool
  oldRemoveOk : Bool
  compileRes : Except String String
  newBinaryBytes : Bytes
  resolveAtInstall : String
  svcInstallRes : Except String Unit
  startRes : Except String Unit
  verifyPolls : Nat → Except String Bool
  resolveAtRollback : String
  rbSvcInstallRes : Except String Unit
  rbStartRes : Except String Unit
  rbVerifyPolls : Nat → Except String Bool
  backupRemoveOk : Bool

/-- Translation of `rollback`: verify the backup file still exists, write
its bytes to the binary path freshly resolved at rollback time (the source
calls `paths.GetMainAgentBinaryPath()` here; `BackupInfo` holds no original
path), then reinstall, start and verify.  The backup file is never removed
here. -/
def rollback (fs : FSys) (backup : BackupInfo) (binaryPathNow : String)
    (svcInstallRes svcStartRes verifyRes : Except String Unit) :
    FSys × Except String Unit :=
  match fsGet fs backup.backupPath with
  | none => (fs, .error "backup file not found - manual recovery required")
  | some backupData =>
    let fs2 := fsWrite fs binaryPathNow backupData
    match svcInstallRes with
    | .error _ => (fs2, .error "failed to reinstall service - manual service installation required")
    | .ok _ =>
      match svcStartRes with
      | .error _ => (fs2, .error "failed to start service - manual service start required")
      | .ok _ =>
        match verifyRes with
        | .error _ => (fs2, .error "service not running after rollback - manual verification required")
        | .ok _ => (fs2, .ok ())

/-- Translation of `cleanupBackupFile`: a missing backup file is tolerated;
a deletion failure is logged without failing the update.  The second
component reports whether the file was actually deleted. -/
def cleanupBackupFile (fs : FSys) (backupPath : String) (removeOk : Bool) : FSys × Bool :=
  if fsExists fs backupPath then
    (if removeOk then (fsRemove fs backupPath, true) else (fs, false))
  else (fs, false)

/-- Terminal outcome of one update attempt. -/
inductive UpdOutcome
  | success
  | rolledBack
  | critical
  | aborted
deriving DecidableEq

/-- Observable summary of one `performUpdate` attempt. -/
structure UpdResult where
  outcome : UpdOutcome
  fs : FSys
  rollbackInvoked : Bool
  backupDeleted : Bool
  reachedCompile : Bool

/-- The failure branch of `performUpdate`: run `rollback`, reporting
`rolledBack` on success and `critical` on any rollback sub-step failure. -/
def runRollback (env : UpdEnv) (fs : FSys) (backup : BackupInfo) (rc : Bool) : UpdResult :=
  match rollback fs backup env.resolveAtRollback env.rbSvcInstallRes env.rbStartRes
    (verifyMainAgentRunning env.rbVerifyPolls).result with
  | (fs2, .ok _) =>
    { outcome := .rolledBack, fs := fs2, rollbackInvoked := true,
      backupDeleted := false, reachedCompile := rc }
  | (fs2, .error _) =>
    { outcome := .critical, fs := fs2, rollbackInvoked := true,
      backupDeleted := false, reachedCompile := rc }

/-- Steps 1-8 of `performUpdate` after the backup: stop, uninstall,
best-effort cleanup (its error is only logged), compile (materializing the
compiled binary), install, service reinstall, start, and verification;
any step failure triggers `rollback`, and only full success deletes the
backup file. -/
def forwardSteps (env : UpdEnv) (fs1 : FSys) (backup : BackupInfo) : UpdResult :=
  match env.stopRes with
  | .error _ => runRollback env fs1 backup false
  | .ok _ =>
    match env.uninstallRes with
    | .error _ => runRollback env fs1 backup false
    | .ok _ =>
      let fs2 := (cleanupOldFiles fs1 env.resolveAtCleanup env.binRemoveOk env.oldRemoveOk).1
      match env.compileRes with
      | .error _ => runRollback env fs2 backup true
      | .ok newBinaryPath =>
        let fs2c := fsWrite fs2 newBinaryPath env.newBinaryBytes
        match installBinary fs2c newBinaryPath env.resolveAtInstall with
        | .error _ => runRollback env fs2c backup true
        | .ok fs3 =>
          match env.svcInstallRes with
          | .error _ => runRollback env fs3 backup true
          | .ok _ =>
            match env.startRes with
            | .error _ => runRollback env fs3 backup true
            | .ok _ =>
              match (verifyMainAgentRunning env.verifyPolls).result with
              | .error _ => runRollback env fs3 backup true
              | .ok _ =>
                let c := cleanupBackupFile fs3 backup.backupPath env.backupRemoveOk
                { outcome := .success, fs := c.1, rollbackInvoked := false,
                  backupDeleted := c.2, reachedCompile := true }

/-- Translation of `performUpdate`: preflight (environment setup and the
installed-version probe), backup creation, then the forward steps with
rollback on failure.  A preflight or backup failure aborts with no
mutation. -/
def performUpdate (env : UpdEnv) (fs0 : FSys) : UpdResult :=
  if env.preflightOk = false then
    { outcome := .aborted, fs := fs0, rollbackInvoked := false,
      backupDeleted := false, reachedCompile := false }
  else
    match createBackup fs0 env.resolveAtBackup env.currentVersion with
    | .error _ =>
      { outcome := .aborted, fs := fs0, rollbackInvoked := false,
        backupDeleted := false, reachedCompile := false }
    | .ok fsb => forwardSteps env fsb.1 fsb.2

/-! ## Filesystem lemmas -/

theorem fsGet_fsWrite_self (fs : FSys) (p : String) (d : Bytes) :
    fsGet (fsWrite fs p d) p = some d := by
  induction fs with
  | nil => simp [fsWrite, fsGet]
  | cons head tail ih =>
    obtain ⟨q, e⟩ := head
    by_cases h : p = q <;> simp [fsWrite, fsGet, h, ih]

theorem fsGet_fsWrite_ne (fs : FSys) {p q : String} (h : q ≠ p) (d : Bytes) :
    fsGet (fsWrite fs p d) q = fsGet fs q := by
  induction fs with
  | nil => simp [fsWrite, fsGet, h]
  | cons head tail ih =>
    obtain ⟨r, e⟩ := head
    by_cases h1 : p = r
    · subst h1
      simp [fsWrite, fsGet, h]
    · by_cases h2 : q = r <;> simp [fsWrite, fsGet, h1, h2, ih]

theorem fsGet_fsRemove_ne (fs : FSys) {p q : String} (h : q ≠ p) :
    fsGet (fsRemove fs p) q = fsGet fs q := by
  induction fs with
  | nil => simp [fsRemove]
  | cons head tail ih =>
    obtain ⟨r, e⟩ := head
    by_cases h1 : p = r
    · subst h1
      simp [fsRemove, fsGet, h, ih]
    · by_cases h2 : q = r <;> simp [fsRemove, fsGet, h1, h2, ih]

theorem fsGet_fsRemove_self (fs : FSys) (p : String) :
    fsGet (fsRemove fs p) p = none := by
  induction fs with
  | nil => simp [fsRemove, fsGet]
  | cons head tail ih =>
    obtain ⟨r, e⟩ := head
    by_cases h1 : p = r
    · subst h1
      simp [fsRemove, ih]
    · simp [fsRemove, fsGet, h1, ih]

theorem fsExists_fsWrite_keep {fs : FSys} {q : String} (p : String) (d : Bytes)
    (h : fsExists fs q = true) : fsExists (fsWrite fs p d) q = true := by
  by_cases hpq : q = p
  · subst hpq
    simp [fsExists, fsGet_fsWrite_self]
  · simpa [fsExists, fsGet_fsWrite_ne fs hpq] using h

theorem fsExists_fsRemove_ne {fs : FSys} {p q : String} (h : q ≠ p) :
    fsExists (fsRemove fs p) q = fsExists fs q := by
  simp [fsExists, fsGet_fsRemove_ne fs h]

/-! ## String-suffix disjointness -/

theorem string_data_append (s t : String) : (s ++ t).data = s.data ++ t.data := rfl

theorem append_backup_ne_self (p : String) : p ++ ".backup" ≠ p := by
  intro h
  have hlen := congrArg String.length h
  rw [String.length_append] at hlen
  have h7 : (".backup" : String).length = 7 := rfl
  rw [h7] at hlen
  omega

theorem append_old_ne_append_backup (p q : String) : q ++ ".old" ≠ p ++ ".backup" := by
  intro h
  have hd := congrArg String.data h
  rw [string_data_append, string_data_append] at hd
  have hrev := congrArg List.reverse hd
  simp [List.reverse_append] at hrev

theorem append_old_ne_self (p : String) : p ++ ".old" ≠ p := by
  intro h
  have hlen := congrArg String.length h
  rw [String.length_append] at hlen
  have h4 : (".old" : String).length = 4 := rfl
  rw [h4] at hlen
  omega


/-! ## Verification-loop lemmas -/

theorem verifyAux_step (polls : Nat → Except String Bool) (a l : Nat) :
    verifyAux polls a (l + 1) =
      match polls a with
      | .ok true => { result := .ok (), pollCount := 1, sleepCount := 0 }
      | .ok false =>
        if l = 0 then
          { result := .error "service not running after 3 verification attempts",
            pollCount := 1, sleepCount := 0 }
        else
          { result := (verifyAux polls (a + 1) l).result,
            pollCount := (verifyAux polls (a + 1) l).pollCount + 1,
            sleepCount := (verifyAux polls (a + 1) l).sleepCount + 1 }
      | .error e =>
        if l = 0 then
          { result := .error ("failed to check service status after 3 attempts: " ++ e),
            pollCount := 1, sleepCount := 0 }
        else
          { result := (verifyAux polls (a + 1) l).result,
            pollCount := (verifyAux polls (a + 1) l).pollCount + 1,
            sleepCount := (verifyAux polls (a + 1) l).sleepCount + 1 } := rfl

theorem verifyAux_pollCount_le (polls : Nat → Except String Bool) :
    ∀ l a, (verifyAux polls a l).pollCount ≤ l := by
  intro l
  induction l with
  | zero => intro a; simp [verifyAux]
  | succ n ih =>
    intro a
    rw [verifyAux_step]
    cases hp : polls a with
    | ok b =>
      cases b
      · by_cases hn : n = 0
        · simp [hn]
        · have := ih (a + 1)
          simp only [hn, if_false]
          omega
      · simp
    | error e =>
      by_cases hn : n = 0
      · simp [hn]
      · have := ih (a + 1)
        simp only [hn, if_false]
        omega

theorem verifyAux_pollCount_pos (polls : Nat → Except String Bool) (a l : Nat) :
    1 ≤ (verifyAux polls a (l + 1)).pollCount := by
  rw [verifyAux_step]
  cases hp : polls a with
  | ok b =>
    cases b
    · by_cases hn : l = 0 <;> simp [hn]
    · simp
  | error e =>
    by_cases hn : l = 0 <;> simp [hn]

theorem verifyAux_sleepCount (polls : Nat → Except String Bool) :
    ∀ l a, (verifyAux polls a l).sleepCount = (verifyAux polls a l).pollCount - 1 := by
  intro l
  induction l with
  | zero => intro a; simp [verifyAux]
  | succ n ih =>
    intro a
    rw [verifyAux_step]
    cases hp : polls a with
    | ok b =>
      cases b
      · by_cases hn : n = 0
        · simp [hn]
        · obtain ⟨m, rfl⟩ : ∃ m, n = m + 1 := ⟨n - 1, by omega⟩
          have h1 := ih (a + 1)
          have h2 := verifyAux_pollCount_pos polls (a + 1) m
          simp only [Nat.succ_ne_zero, if_false]
          omega
      · simp
    | error e =>
      by_cases hn : n = 0
      · simp [hn]
      · obtain ⟨m, rfl⟩ : ∃ m, n = m + 1 := ⟨n - 1, by omega⟩
        have h1 := ih (a + 1)
        have h2 := verifyAux_pollCount_pos polls (a + 1) m
        simp only [Nat.succ_ne_zero, if_false]
        omega

theorem verifyAux_ok_iff (polls : Nat → Except String Bool) :
    ∀ l a, ((verifyAux polls a l).result = .ok () ↔
      ∃ k, a ≤ k ∧ k < a + l ∧ polls k = .ok true) := by
  intro l
  induction l with
  | zero =>
    intro a
    simp only [verifyAux]
    constructor
    · intro h
      exact absurd h (by simp)
    · rintro ⟨k, h1, h2, _⟩
      omega
  | succ n ih =>
    intro a
    rw [verifyAux_step]
    cases hp : polls a with
    | ok b =>
      cases b
      · by_cases hn : n = 0
        · subst hn
          simp only [reduceIte]
          constructor
          · intro h
            exact absurd h (by simp)
          · rintro ⟨k, h1, h2, h3⟩
            have hk : k = a := by omega
            subst hk
            rw [hp] at h3
            simp at h3
        · simp only [hn, if_false]
          rw [ih (a + 1)]
          constructor
          · rintro ⟨k, h1, h2, h3⟩
            exact ⟨k, by omega, by omega, h3⟩
          · rintro ⟨k, h1, h2, h3⟩
            by_cases hk : k = a
            · subst hk
              rw [hp] at h3
              simp at h3
            · exact ⟨k, by omega, by omega, h3⟩
      · constructor
        · intro _
          exact ⟨a, by omega, by omega, hp⟩
        · intro _
          rfl
    | error e =>
      by_cases hn : n = 0
      · subst hn
        simp only [reduceIte]
        constructor
        · intro h
          exact absurd h (by simp)
        · rintro ⟨k, h1, h2, h3⟩
          have hk : k = a := by omega
          subst hk
          rw [hp] at h3
          simp at h3
      · simp only [hn, if_false]
        rw [ih (a + 1)]
        constructor
        · rintro ⟨k, h1, h2, h3⟩
          exact ⟨k, by omega, by omega, h3⟩
        · rintro ⟨k, h1, h2, h3⟩
          by_cases hk : k = a
          · subst hk
            rw [hp] at h3
            simp at h3
          · exact ⟨k, by omega, by omega, h3⟩

/-! ## Orchestrator preservation lemmas -/

theorem rollback_fs_keep {fs : FSys} {q : String} (backup : BackupInfo)
    (binaryPathNow : String) (si st v : Except String Unit)
    (h : fsExists fs q = true) :
    fsExists (rollback fs backup binaryPathNow si st v).1 q = true := by
  unfold rollback
  cases hg : fsGet fs backup.backupPath with
  | none => simpa using h
  | some data =>
    cases si with
    | error e => simpa using fsExists_fsWrite_keep binaryPathNow data h
    | ok u =>
      cases st with
      | error e => simpa using fsExists_fsWrite_keep binaryPathNow data h
      | ok u2 =>
        cases v with
        | error e => simpa using fsExists_fsWrite_keep binaryPathNow data h
        | ok u3 => simpa using fsExists_fsWrite_keep binaryPathNow data h

theorem rollback_snd_congr {fs fs2 : FSys} (backup : BackupInfo)
    (binaryPathNow : String) (si st v : Except String Unit)
    (h : fsExists fs backup.backupPath = true)
    (h2 : fsExists fs2 backup.backupPath = true) :
    (rollback fs backup binaryPathNow si st v).2 =
      (rollback fs2 backup binaryPathNow si st v).2 := by
  unfold rollback
  rw [fsExists] at h h2
  cases hg : fsGet fs backup.backupPath with
  | none => rw [hg] at h; simp at h
  | some data =>
    cases hg2 : fsGet fs2 backup.backupPath with
    | none => rw [hg2] at h2; simp at h2
    | some data2 =>
      cases si <;> cases st <;> cases v <;> simp

theorem runRollback_facts (env : UpdEnv) (fs : FSys) (backup : BackupInfo) (rc : Bool) :
    (runRollback env fs backup rc).backupDeleted = false
    ∧ (runRollback env fs backup rc).rollbackInvoked = true
    ∧ (runRollback env fs backup rc).outcome ≠ .success
    ∧ (runRollback env fs backup rc).reachedCompile = rc
    ∧ (∀ q, fsExists fs q = true → fsExists (runRollback env fs backup rc).fs q = true) := by
  unfold runRollback
  cases hr : rollback fs backup env.resolveAtRollback env.rbSvcInstallRes env.rbStartRes
      (verifyMainAgentRunning env.rbVerifyPolls).result with
  | mk fs2 res =>
    have hfs2 : ∀ q, fsExists fs q = true → fsExists fs2 q = true := by
      intro q hq
      have := rollback_fs_keep backup env.resolveAtRollback env.rbSvcInstallRes env.rbStartRes
        (verifyMainAgentRunning env.rbVerifyPolls).result hq
      rw [hr] at this
      exact this
    cases res with
    | ok u => exact ⟨rfl, rfl, by simp, rfl, hfs2⟩
    | error e => exact ⟨rfl, rfl, by simp, rfl, hfs2⟩

theorem runRollback_outcome_congr (env : UpdEnv) {fs fs2 : FSys} (backup : BackupInfo)
    (rc rc2 : Bool) (h : fsExists fs backup.backupPath = true)
    (h2 : fsExists fs2 backup.backupPath = true) :
    (runRollback env fs backup rc).outcome = (runRollback env fs2 backup rc2).outcome := by
  have hsnd := rollback_snd_congr backup env.resolveAtRollback env.rbSvcInstallRes
    env.rbStartRes (verifyMainAgentRunning env.rbVerifyPolls).result h h2
  unfold runRollback
  cases hr : rollback fs backup env.resolveAtRollback env.rbSvcInstallRes env.rbStartRes
      (verifyMainAgentRunning env.rbVerifyPolls).result with
  | mk fsa resa =>
    cases hr2 : rollback fs2 backup env.resolveAtRollback env.rbSvcInstallRes env.rbStartRes
        (verifyMainAgentRunning env.rbVerifyPolls).result with
    | mk fsb resb =>
      rw [hr, hr2] at hsnd
      simp only at hsnd
      subst hsnd
      cases resa <;> simp

theorem cleanup_fsGet_keep (fs : FSys) (p : String) (b o : Bool) {q : String}
    (h1 : q ≠ p) (h2 : q ≠ p ++ ".old") :
    fsGet (cleanupOldFiles fs p b o).1 q = fsGet fs q := by
  unfold cleanupOldFiles
  by_cases e1 : fsExists fs p = true <;> by_cases hb : b = true <;>
    simp only [e1, hb, if_true, if_false, Bool.false_eq_true] <;>
    split_ifs <;>
    simp [fsGet_fsRemove_ne _ h1, fsGet_fsRemove_ne _ h2]

theorem cleanup_fsExists_keep (fs : FSys) (p : String) (b o : Bool) {q : String}
    (h1 : q ≠ p) (h2 : q ≠ p ++ ".old")
    (h : fsExists fs q = true) :
    fsExists (cleanupOldFiles fs p b o).1 q = true := by
  rw [fsExists, cleanup_fsGet_keep fs p b o h1 h2]
  exact h

theorem installBinary_of_written (fs : FSys) (p t : String) (d : Bytes) :
    installBinary (fsWrite fs p d) p t = .ok (fsWrite (fsWrite fs p d) t d) := by
  unfold installBinary
  rw [fsGet_fsWrite_self]

theorem performUpdate_eq_forward (env : UpdEnv) (fs0 : FSys) (data : Bytes)
    (hpre : env.preflightOk = true)
    (hg : fsGet fs0 env.resolveAtBackup = some data) :
    performUpdate env fs0 =
      forwardSteps env (fsWrite fs0 (env.resolveAtBackup ++ ".backup") data)
        { version := env.currentVersion,
          backupPath := env.resolveAtBackup ++ ".backup", timestamp := 0 } := by
  unfold performUpdate createBackup
  rw [hpre, hg]
  simp

theorem forwardSteps_backup_facts (env : UpdEnv) (fs1 : FSys) (backup : BackupInfo)
    (hb : fsExists fs1 backup.backupPath = true)
    (h1 : env.resolveAtCleanup ≠ backup.backupPath)
    (h2 : env.resolveAtCleanup ++ ".old" ≠ backup.backupPath) :
    ((forwardSteps env fs1 backup).outcome ≠ .success →
       fsExists (forwardSteps env fs1 backup).fs backup.backupPath = true
       ∧ (forwardSteps env fs1 backup).backupDeleted = false)
    ∧ ((forwardSteps env fs1 backup).backupDeleted = true →
       (forwardSteps env fs1 backup).outcome = .success) := by
  unfold forwardSteps
  cases hs : env.stopRes with
  | error e =>
    obtain ⟨f1, _, _, _, f5⟩ := runRollback_facts env fs1 backup false
    exact ⟨fun _ => ⟨f5 _ hb, f1⟩, fun hd => absurd (f1 ▸ hd) (by simp)⟩
  | ok u1 =>
  cases hu : env.uninstallRes with
  | error e =>
    obtain ⟨f1, _, _, _, f5⟩ := runRollback_facts env fs1 backup false
    exact ⟨fun _ => ⟨f5 _ hb, f1⟩, fun hd => absurd (f1 ▸ hd) (by simp)⟩
  | ok u2 =>
  dsimp only
  have hb2 : fsExists (cleanupOldFiles fs1 env.resolveAtCleanup env.binRemoveOk
      env.oldRemoveOk).1 backup.backupPath = true :=
    cleanup_fsExists_keep fs1 env.resolveAtCleanup env.binRemoveOk env.oldRemoveOk
      (Ne.symm h1) (fun hq => h2 hq.symm) hb
  cases hc : env.compileRes with
  | error e =>
    obtain ⟨f1, _, _, _, f5⟩ := runRollback_facts env _ backup true
    exact ⟨fun _ => ⟨f5 _ hb2, f1⟩, fun hd => absurd (f1 ▸ hd) (by simp)⟩
  | ok newBinaryPath =>
  dsimp only
  rw [installBinary_of_written]
  have hb3 : fsExists (fsWrite (cleanupOldFiles fs1 env.resolveAtCleanup env.binRemoveOk
      env.oldRemoveOk).1 newBinaryPath env.newBinaryBytes) backup.backupPath = true :=
    fsExists_fsWrite_keep _ _ hb2
  have hb4 : fsExists (fsWrite (fsWrite (cleanupOldFiles fs1 env.resolveAtCleanup
      env.binRemoveOk env.oldRemoveOk).1 newBinaryPath env.newBinaryBytes)
      env.resolveAtInstall env.newBinaryBytes) backup.backupPath = true :=
    fsExists_fsWrite_keep _ _ hb3
  cases hi : env.svcInstallRes with
  | error e =>
    obtain ⟨f1, _, _, _, f5⟩ := runRollback_facts env _ backup true
    exact ⟨fun _ => ⟨f5 _ hb4, f1⟩, fun hd => absurd (f1 ▸ hd) (by simp)⟩
  | ok u3 =>
  cases hst : env.startRes with
  | error e =>
    obtain ⟨f1, _, _, _, f5⟩ := runRollback_facts env _ backup true
    exact ⟨fun _ => ⟨f5 _ hb4, f1⟩, fun hd => absurd (f1 ▸ hd) (by simp)⟩
  | ok u4 =>
  cases hv : (verifyMainAgentRunning env.verifyPolls).result with
  | error e =>
    obtain ⟨f1, _, _, _, f5⟩ := runRollback_facts env _ backup true
    exact ⟨fun _ => ⟨f5 _ hb4, f1⟩, fun hd => absurd (f1 ▸ hd) (by simp)⟩
  | ok u5 =>
  dsimp only
  exact ⟨fun h => absurd rfl h, fun _ => rfl⟩

theorem forwardSteps_reachedCompile (env : UpdEnv) (fs1 : FSys) (backup : BackupInfo)
    (hs : env.stopRes = .ok ()) (hu : env.uninstallRes = .ok ()) :
    (forwardSteps env fs1 backup).reachedCompile = true := by
  unfold forwardSteps
  rw [hs, hu]
  dsimp only
  cases hc : env.compileRes with
  | error e => exact (runRollback_facts env _ backup true).2.2.2.1
  | ok newBinaryPath =>
  dsimp only
  rw [installBinary_of_written]
  cases hi : env.svcInstallRes with
  | error e => exact (runRollback_facts env _ backup true).2.2.2.1
  | ok u3 =>
  cases hst : env.startRes with
  | error e => exact (runRollback_facts env _ backup true).2.2.2.1
  | ok u4 =>
  cases hv : (verifyMainAgentRunning env.verifyPolls).result with
  | error e => exact (runRollback_facts env _ backup true).2.2.2.1
  | ok u5 => rfl

theorem forwardSteps_rollbackInvoked_of_verify_fail (env : UpdEnv) (fs1 : FSys)
    (backup : BackupInfo) (hs : env.stopRes = .ok ()) (hu : env.uninstallRes = .ok ())
    (p : String) (hc : env.compileRes = .ok p)
    (hi : env.svcInstallRes = .ok ()) (hst : env.startRes = .ok ())
    (hv : (verifyMainAgentRunning env.verifyPolls).result ≠ .ok ()) :
    (forwardSteps env fs1 backup).rollbackInvoked = true := by
  unfold forwardSteps
  rw [hs, hu]
  dsimp only
  rw [hc]
  dsimp only
  rw [installBinary_of_written, hi, hst]
  cases hres : (verifyMainAgentRunning env.verifyPolls).result with
  | error e => exact (runRollback_facts env _ backup true).2.1
  | ok u5 => exact absurd hres hv

theorem runRollback_outcome_congr2 (e1 e2 : UpdEnv) {fsA fsB : FSys} (backup : BackupInfo)
    (rc1 rc2 : Bool)
    (hbA : fsExists fsA backup.backupPath = true)
    (hbB : fsExists fsB backup.backupPath = true)
    (q7 : e1.resolveAtRollback = e2.resolveAtRollback)
    (q8 : e1.rbSvcInstallRes = e2.rbSvcInstallRes)
    (q9 : e1.rbStartRes = e2.rbStartRes)
    (q10 : e1.rbVerifyPolls = e2.rbVerifyPolls) :
    (runRollback e1 fsA backup rc1).outcome = (runRollback e2 fsB backup rc2).outcome := by
  unfold runRollback
  rw [q7, q8, q9, q10]
  have hsnd := rollback_snd_congr backup e2.resolveAtRollback e2.rbSvcInstallRes
    e2.rbStartRes (verifyMainAgentRunning e2.rbVerifyPolls).result hbA hbB
  cases hr : rollback fsA backup e2.resolveAtRollback e2.rbSvcInstallRes e2.rbStartRes
      (verifyMainAgentRunning e2.rbVerifyPolls).result with
  | mk fsa resa =>
    cases hr2 : rollback fsB backup e2.resolveAtRollback e2.rbSvcInstallRes e2.rbStartRes
        (verifyMainAgentRunning e2.rbVerifyPolls).result with
    | mk fsb resb =>
      rw [hr, hr2] at hsnd
      simp only at hsnd
      subst hsnd
      cases resa <;> simp

theorem forwardSteps_outcome_congr (e1 e2 : UpdEnv) (fsA fsB : FSys) (backup : BackupInfo)
    (hbA : fsExists fsA backup.backupPath = true)
    (hbB : fsExists fsB backup.backupPath = true)
    (hA1 : e1.resolveAtCleanup ≠ backup.backupPath)
    (hA2 : e1.resolveAtCleanup ++ ".old" ≠ backup.backupPath)
    (hB1 : e2.resolveAtCleanup ≠ backup.backupPath)
    (hB2 : e2.resolveAtCleanup ++ ".old" ≠ backup.backupPath)
    (q1 : e1.stopRes = e2.stopRes) (q2 : e1.uninstallRes = e2.uninstallRes)
    (q3 : e1.compileRes = e2.compileRes)
    (q4 : e1.svcInstallRes = e2.svcInstallRes) (q5 : e1.startRes = e2.startRes)
    (q6 : e1.verifyPolls = e2.verifyPolls)
    (q7 : e1.resolveAtRollback = e2.resolveAtRollback)
    (q8 : e1.rbSvcInstallRes = e2.rbSvcInstallRes)
    (q9 : e1.rbStartRes = e2.rbStartRes)
    (q10 : e1.rbVerifyPolls = e2.rbVerifyPolls) :
    (forwardSteps e1 fsA backup).outcome = (forwardSteps e2 fsB backup).outcome := by
  unfold forwardSteps
  rw [q1, q2, q3, q4, q5, q6]
  cases hs : e2.stopRes with
  | error e => exact runRollback_outcome_congr2 e1 e2 backup false false hbA hbB q7 q8 q9 q10
  | ok u1 =>
  cases hu : e2.uninstallRes with
  | error e => exact runRollback_outcome_congr2 e1 e2 backup false false hbA hbB q7 q8 q9 q10
  | ok u2 =>
  dsimp only
  have hbA2 : fsExists (cleanupOldFiles fsA e1.resolveAtCleanup e1.binRemoveOk
      e1.oldRemoveOk).1 backup.backupPath = true :=
    cleanup_fsExists_keep fsA e1.resolveAtCleanup e1.binRemoveOk e1.oldRemoveOk
      (Ne.symm hA1) (fun hq => hA2 hq.symm) hbA
  have hbB2 : fsExists (cleanupOldFiles fsB e2.resolveAtCleanup e2.binRemoveOk
      e2.oldRemoveOk).1 backup.backupPath = true :=
    cleanup_fsExists_keep fsB e2.resolveAtCleanup e2.binRemoveOk e2.oldRemoveOk
      (Ne.symm hB1) (fun hq => hB2 hq.symm) hbB
  cases hc : e2.compileRes with
  | error e => exact runRollback_outcome_congr2 e1 e2 backup true true hbA2 hbB2 q7 q8 q9 q10
  | ok newBinaryPath =>
  dsimp only
  rw [installBinary_of_written, installBinary_of_written]
  have hbA4 : fsExists (fsWrite (fsWrite (cleanupOldFiles fsA e1.resolveAtCleanup
      e1.binRemoveOk e1.oldRemoveOk).1 newBinaryPath e1.newBinaryBytes)
      e1.resolveAtInstall e1.newBinaryBytes) backup.backupPath = true :=
    fsExists_fsWrite_keep _ _ (fsExists_fsWrite_keep _ _ hbA2)
  have hbB4 : fsExists (fsWrite (fsWrite (cleanupOldFiles fsB e2.resolveAtCleanup
      e2.binRemoveOk e2.oldRemoveOk).1 newBinaryPath e2.newBinaryBytes)
      e2.resolveAtInstall e2.newBinaryBytes) backup.backupPath = true :=
    fsExists_fsWrite_keep _ _ (fsExists_fsWrite_keep _ _ hbB2)
  cases hi : e2.svcInstallRes with
  | error e => exact runRollback_outcome_congr2 e1 e2 backup true true hbA4 hbB4 q7 q8 q9 q10
  | ok u3 =>
  cases hst : e2.startRes with
  | error e => exact runRollback_outcome_congr2 e1 e2 backup true true hbA4 hbB4 q7 q8 q9 q10
  | ok u4 =>
  cases hv : (verifyMainAgentRunning e2.verifyPolls).result with
  | error e => exact runRollback_outcome_congr2 e1 e2 backup true true hbA4 hbB4 q7 q8 q9 q10
  | ok u5 => rfl

/-! ## Detector lemmas -/

theorem runStrategies_fst (fs : DetectFS) :
    ∀ (list : List (String × String × Except String String)) (acc : List DetectionError),
      (runStrategies fs list acc).1 =
        (match specResolve (list.map (fun s => stratDiag fs s.1 s.2.1 s.2.2)) with
         | .ok p => .ok p
         | .error es => .error (acc ++ es)) := by
  intro list
  induction list with
  | nil => intro acc; simp [runStrategies, specResolve]
  | cons s rest ih =>
    intro acc
    cases hd : stratDiag fs s.1 s.2.1 s.2.2 with
    | ok p => simp [runStrategies, hd, specResolve]
    | error d =>
      simp only [runStrategies, hd, List.map_cons, specResolve]
      rw [ih]
      cases hs : specResolve (rest.map (fun s => stratDiag fs s.1 s.2.1 s.2.2)) with
      | ok p => simp
      | error es => simp

theorem runStrategies_snd (fs : DetectFS) :
    ∀ (list : List (String × String × Except String String)) (acc : List DetectionError),
      (runStrategies fs list acc).2 =
        (list.map (fun s => s.1)).take
          (specAttemptCount (list.map (fun s => stratDiag fs s.1 s.2.1 s.2.2))) := by
  intro list
  induction list with
  | nil => intro acc; simp [runStrategies]
  | cons s rest ih =>
    intro acc
    cases hd : stratDiag fs s.1 s.2.1 s.2.2 with
    | ok p => simp [runStrategies, hd, specAttemptCount]
    | error d =>
      simp only [runStrategies, hd, List.map_cons, specAttemptCount, List.take_succ_cons,
        List.map_cons]
      rw [ih]

theorem runStrategies_ok_valid (fs : DetectFS) :
    ∀ (list : List (String × String × Except String String)) (acc : List DetectionError)
      (p : String), (runStrategies fs list acc).1 = .ok p →
      validateBinaryPath fs p = true := by
  intro list
  induction list with
  | nil => intro acc p h; simp [runStrategies] at h
  | cons s rest ih =>
    intro acc p h
    cases hd : stratDiag fs s.1 s.2.1 s.2.2 with
    | ok q =>
      rw [runStrategies, hd] at h
      simp only at h
      have hq : q = p := by
        cases h
        rfl
      subst hq
      unfold stratDiag at hd
      cases hres : s.2.2 with
      | error e => rw [hres] at hd; simp at hd
      | ok path =>
        rw [hres] at hd
        simp only at hd
        cases hval : validateBinaryPathWithDetails fs path with
        | none =>
          rw [hval] at hd
          simp only at hd
          cases hd
          simp [validateBinaryPath, hval]
        | some verr => rw [hval] at hd; simp at hd
    | error d =>
      rw [runStrategies, hd] at h
      simp only at h
      exact ih (acc ++ [d]) p h

theorem validateBinaryPath_ne_empty (fs : DetectFS) (p : String)
    (h : validateBinaryPath fs p = true) : p ≠ "" := by
  intro hp
  subst hp
  simp [validateBinaryPath, validateBinaryPathWithDetails] at h

theorem detect_ok_state (d : BinaryDetector) (fs : DetectFS) (env : DetectEnv) (p : String)
    (h : (detectBinaryPath d fs env).1 = .ok p) :
    (detectBinaryPath d fs env).2.1.cachedPath = p ∧ validateBinaryPath fs p = true := by
  have auto_case : ∀ d2 : BinaryDetector, (autoDetect d2 fs env).1 = .ok p →
      (autoDetect d2 fs env).2.1.cachedPath = p ∧ validateBinaryPath fs p = true := by
    intro d2 h2
    unfold autoDetect at h2 ⊢
    cases hr : runStrategies fs (strategyList env) [] with
    | mk res run =>
      cases res with
      | ok q =>
        rw [hr] at h2
        simp only at h2
        have hq : q = p := by
          cases h2
          rfl
        subst hq
        have hval := runStrategies_ok_valid fs (strategyList env) [] q (by rw [hr])
        exact ⟨rfl, hval⟩
      | error es =>
        rw [hr] at h2
        simp at h2
  have nocache_case : ∀ d2 : BinaryDetector, (detectNoCache d2 fs env).1 = .ok p →
      (detectNoCache d2 fs env).2.1.cachedPath = p ∧ validateBinaryPath fs p = true := by
    intro d2 h2
    unfold detectNoCache at h2 ⊢
    by_cases hcfg : d2.configPath = ""
    · rw [if_pos hcfg] at h2
      rw [if_pos hcfg]
      exact auto_case d2 h2
    · rw [if_neg hcfg] at h2
      rw [if_neg hcfg]
      by_cases hval : validateBinaryPath fs d2.configPath = true
      · rw [if_pos hval] at h2
        rw [if_pos hval]
        simp only at h2
        have : d2.configPath = p := by
          cases h2
          rfl
        subst this
        exact ⟨rfl, hval⟩
      · rw [if_neg hval] at h2
        rw [if_neg hval]
        exact auto_case d2 h2
  unfold detectBinaryPath at h ⊢
  by_cases hc : d.cachedPath = ""
  · rw [if_pos hc] at h
    rw [if_pos hc]
    exact nocache_case d h
  · rw [if_neg hc] at h
    rw [if_neg hc]
    by_cases hval : validateBinaryPath fs d.cachedPath = true
    · rw [if_pos hval] at h
      rw [if_pos hval]
      simp only at h
      have : d.cachedPath = p := by
        cases h
        rfl
      subst this
      exact ⟨rfl, hval⟩
    · rw [if_neg hval] at h
      rw [if_neg hval]
      exact nocache_case _ h

/-! ## Claim theorems -/

/-- C3: `isNewerVersion c l` is false when `c = l`; otherwise the result is
the numeric left-to-right short-circuit comparison of the parsed
(major, minor, patch) triples, with missing segments zero (holds for
`parseVersion "1.6"`); `isNewerVersion "1.6.9" "1.6.10"` is true,
`isNewerVersion "2.0.0" "1.9.9"` is false; and prepending a leading 'v' to
either unprefixed argument does not change the result. -/
theorem c3_isNewerVersion_contract :
    (∀ c l : String, c = l → isNewerVersion c l = false)
    ∧ (∀ c l : String,
        isNewerVersion c l =
          tripleNewer (parseVersion (goTrimPrefixV c)) (parseVersion (goTrimPrefixV l)))
    ∧ isNewerVersion "1.6.9" "1.6.10" = true
    ∧ isNewerVersion "2.0.0" "1.9.9" = false
    ∧ parseVersion "1.6" = (1, 6, 0)
    ∧ (∀ c l : String, goTrimPrefixV c = c → goTrimPrefixV l = l →
        isNewerVersion ("v" ++ c) l = isNewerVersion c l
        ∧ isNewerVersion c ("v" ++ l) = isNewerVersion c l
        ∧ isNewerVersion ("v" ++ c) ("v" ++ l) = isNewerVersion c l) := by
  refine ⟨?_, isNewerVersion_eq_tripleNewer, by decide, by decide, by decide, ?_⟩
  · intro c l h
    subst h
    rw [isNewerVersion_eq_tripleNewer, tripleNewer_self]
  · intro c l hc hl
    refine ⟨?_, ?_, ?_⟩
    · rw [isNewerVersion_eq_tripleNewer, isNewerVersion_eq_tripleNewer,
        goTrimPrefixV_vappend, hc, hl]
    · rw [isNewerVersion_eq_tripleNewer, isNewerVersion_eq_tripleNewer,
        goTrimPrefixV_vappend, hc, hl]
    · rw [isNewerVersion_eq_tripleNewer, isNewerVersion_eq_tripleNewer,
        goTrimPrefixV_vappend, goTrimPrefixV_vappend, hc, hl]

/-- Witness for C3 at concrete inputs, discharging the hypotheses of its
universally quantified conjuncts. -/
theorem c3_witness :
    isNewerVersion "1.2.3" "1.2.3" = false
    ∧ (isNewerVersion ("v" ++ "1.6.9") "1.6.10" = isNewerVersion "1.6.9" "1.6.10"
       ∧ isNewerVersion "1.6.9" ("v" ++ "1.6.10") = isNewerVersion "1.6.9" "1.6.10"
       ∧ isNewerVersion ("v" ++ "1.6.9") ("v" ++ "1.6.10") = isNewerVersion "1.6.9" "1.6.10") :=
  ⟨c3_isNewerVersion_contract.1 "1.2.3" "1.2.3" rfl,
   c3_isNewerVersion_contract.2.2.2.2.2 "1.6.9" "1.6.10" (by decide) (by decide)⟩

/-- C10: whenever the trimmed arguments' first three dot-separated segments
parse to equal numeric triples — for example strings differing only in a
non-numeric suffix — `isNewerVersion` returns false in both argument
orders, so no update is triggered. -/
theorem c10_equal_triples_no_update (c l : String)
    (h : parseVersion (goTrimPrefixV c) = parseVersion (goTrimPrefixV l)) :
    isNewerVersion c l = false ∧ isNewerVersion l c = false := by
  constructor
  · rw [isNewerVersion_eq_tripleNewer, h, tripleNewer_self]
  · rw [isNewerVersion_eq_tripleNewer, ← h, tripleNewer_self]

/-- Witness for C10: "1.6.9-rc1" and "v1.6.9" parse to the same triple and
neither direction reports an update. -/
theorem c10_witness :
    parseVersion (goTrimPrefixV "1.6.9-rc1") = parseVersion (goTrimPrefixV "v1.6.9")
    ∧ isNewerVersion "1.6.9-rc1" "v1.6.9" = false
    ∧ isNewerVersion "v1.6.9" "1.6.9-rc1" = false :=
  ⟨by decide,
   (c10_equal_triples_no_update "1.6.9-rc1" "v1.6.9" (by decide)).1,
   (c10_equal_triples_no_update "1.6.9-rc1" "v1.6.9" (by decide)).2⟩

/-- C9: when the version invocation succeeds with nonempty trimmed output
containing no whitespace-separated token that starts with 'v' followed by a
digit, `getInstalledVersion` does not fail: it returns the entire trimmed
output; it errors only when the invocation itself fails or the output is
empty. -/
theorem c9_getInstalledVersion_fallback :
    (∀ (env : VersionEnv) (p output : String),
      env.detectRes = .ok p → env.binaryExists = true → env.cmdOutput = .ok output →
      (trimL output.data).isEmpty = false →
      (∀ part ∈ fieldsL (trimL output.data), isVersionToken part = false) →
      getInstalledVersion env = .ok (String.mk (trimL output.data)))
    ∧ (∀ (env : VersionEnv) (p e : String),
        env.detectRes = .ok p → env.binaryExists = true → env.cmdOutput = .error e →
        getInstalledVersion env = .error ("failed to get version from binary: " ++ e))
    ∧ (∀ (env : VersionEnv) (p output : String),
        env.detectRes = .ok p → env.binaryExists = true → env.cmdOutput = .ok output →
        (trimL output.data).isEmpty = true →
        getInstalledVersion env = .error "binary returned empty version") := by
  refine ⟨?_, ?_, ?_⟩
  · intro env p output hd hb hc hne hnone
    unfold getInstalledVersion
    rw [hd, hb, hc]
    simp only [Bool.true_eq_false, if_false, hne]
    have hfind : (fieldsL (trimL output.data)).find? isVersionToken = none := by
      rw [List.find?_eq_none]
      intro x hx
      simp [hnone x hx]
    rw [hfind]
    simp
  · intro env p e hd hb hc
    unfold getInstalledVersion
    rw [hd, hb, hc]
    simp
  · intro env p output hd hb hc hemp
    unfold getInstalledVersion
    rw [hd, hb, hc]
    simp only [Bool.true_eq_false, if_false, hemp]
    rfl

/-- Witness for C9: output with no v-digit token is returned whole; a
failing invocation and empty output produce errors. -/
theorem c9_witness :
    getInstalledVersion
        { detectRes := .ok "/usr/local/bin/sentinel", binaryExists := true,
          cmdOutput := .ok "SentinelGo version 1.6.116" } =
      .ok (String.mk (trimL "SentinelGo version 1.6.116".data))
    ∧ getInstalledVersion
        { detectRes := .ok "/usr/local/bin/sentinel", binaryExists := true,
          cmdOutput := .error "exit status 1" } =
      .error ("failed to get version from binary: " ++ "exit status 1")
    ∧ getInstalledVersion
        { detectRes := .ok "/usr/local/bin/sentinel", binaryExists := true,
          cmdOutput := .ok "  " } =
      .error "binary returned empty version" :=
  ⟨c9_getInstalledVersion_fallback.1 _ "/usr/local/bin/sentinel"
      "SentinelGo version 1.6.116" rfl rfl rfl (by decide) (by decide),
   c9_getInstalledVersion_fallback.2.1 _ "/usr/local/bin/sentinel" "exit status 1"
      rfl rfl rfl,
   c9_getInstalledVersion_fallback.2.2 _ "/usr/local/bin/sentinel" "  "
      rfl rfl rfl (by decide)⟩

/-- C4 counterexample: with the service absent, the Linux manager's Stop
and Uninstall propagate the failing systemctl result as an error — only the
Windows manager maps the absent-service failure (error 1060) to success —
refuting the claim that Stop/Uninstall on an already-absent service return
success on every supported platform. -/
theorem c4_counterexample :
    linuxStop "sentinelgo" systemctlStopUnitNotLoaded =
      .error "failed to stop service sentinelgo"
    ∧ linuxUninstall "sentinelgo" systemctlDisableUnitMissing true true =
      .error "failed to disable service sentinelgo"
    ∧ windowsStop "sentinelgo" scStopServiceMissing = .ok () := by
  refine ⟨rfl, rfl, ?_⟩
  rfl

/-- C4 amended: on Windows, Stop and Uninstall treat an absent service
(sc.exe failure whose output mentions 1060 or "does not exist") as success;
on Linux, Stop and Uninstall return an error for any failing systemctl
invocation — including the one an absent service produces — with no
absent-service exemption. -/
theorem c4_amended_idempotence :
    (∀ name out : String, goContains out "1060" = true →
      windowsStop name { output := out, failed := true } = .ok ())
    ∧ (∀ name out : String, goContains out "does not exist" = true →
      windowsStop name { output := out, failed := true } = .ok ())
    ∧ (∀ name out : String, goContains out "1060" = true →
      windowsUninstall name { output := out, failed := true } = .ok ())
    ∧ (∀ name out : String, goContains out "does not exist" = true →
      windowsUninstall name { output := out, failed := true } = .ok ())
    ∧ (∀ name out : String,
      linuxStop name { output := out, failed := true } =
        .error ("failed to stop service " ++ name))
    ∧ (∀ (name out : String) (removeOk reloadOk : Bool),
      linuxUninstall name { output := out, failed := true } removeOk reloadOk =
        .error ("failed to disable service " ++ name)) := by
  refine ⟨?_, ?_, ?_, ?_, ?_, ?_⟩
  · intro name out h
    simp [windowsStop, h]
  · intro name out h
    simp [windowsStop, h]
  · intro name out h
    simp [windowsUninstall, h]
  · intro name out h
    simp [windowsUninstall, h]
  · intro name out
    rfl
  · intro name out removeOk reloadOk
    rfl

/-- Witness for C4's amended statement at the concrete absent-service
outputs. -/
theorem c4_amended_witness :
    windowsStop "sentinelgo"
      { output := scStopServiceMissing.output, failed := true } = .ok ()
    ∧ windowsUninstall "sentinelgo"
      { output := scStopServiceMissing.output, failed := true } = .ok ()
    ∧ linuxStop "svc" { output := "boom", failed := true } =
      .error ("failed to stop service " ++ "svc")
    ∧ linuxUninstall "svc" { output := "boom", failed := true } false true =
      .error ("failed to disable service " ++ "svc") :=
  ⟨c4_amended_idempotence.1 "sentinelgo" scStopServiceMissing.output (by decide),
   c4_amended_idempotence.2.2.1 "sentinelgo" scStopServiceMissing.output (by decide),
   c4_amended_idempotence.2.2.2.2.1 "svc" "boom",
   c4_amended_idempotence.2.2.2.2.2 "svc" "boom" false true⟩

theorem detectNoCache_eq_auto (d2 : BinaryDetector) (fs : DetectFS) (env : DetectEnv)
    (hcfg : d2.configPath = "" ∨ validateBinaryPath fs d2.configPath = false) :
    detectNoCache d2 fs env = autoDetect d2 fs env := by
  unfold detectNoCache
  by_cases h0 : d2.configPath = ""
  · rw [if_pos h0]
  · rw [if_neg h0]
    have hv : validateBinaryPath fs d2.configPath = false := by
      rcases hcfg with h | h
      · exact absurd h h0
      · exact h
    simp only [hv]
    rw [if_neg (by simp)]

theorem detect_eq_auto (d : BinaryDetector) (fs : DetectFS) (env : DetectEnv)
    (hcache : d.cachedPath = "" ∨ validateBinaryPath fs d.cachedPath = false)
    (hcfg : d.configPath = "" ∨ validateBinaryPath fs d.configPath = false) :
    ∃ d2 : BinaryDetector, detectBinaryPath d fs env = autoDetect d2 fs env := by
  unfold detectBinaryPath
  by_cases h0 : d.cachedPath = ""
  · rw [if_pos h0]
    exact ⟨d, detectNoCache_eq_auto d fs env hcfg⟩
  · rw [if_neg h0]
    have hv : validateBinaryPath fs d.cachedPath = false := by
      rcases hcache with h | h
      · exact absurd h h0
      · exact h
    simp only [hv]
    rw [if_neg (by simp)]
    exact ⟨{ d with cachedPath := "" },
      detectNoCache_eq_auto { d with cachedPath := "" } fs env hcfg⟩

theorem autoDetect_spec (d2 : BinaryDetector) (fs : DetectFS) (env : DetectEnv) :
    (autoDetect d2 fs env).1 =
      Except.mapError
        (fun es => { strategyFailures := es, searchedCommonPaths := env.commonPathsList,
                     searchedPathDirs := env.pathDirs })
        (specResolve ((strategyList env).map (fun s => stratDiag fs s.1 s.2.1 s.2.2)))
    ∧ (autoDetect d2 fs env).2.2 =
        ((strategyList env).map (fun s => s.1)).take
          (specAttemptCount ((strategyList env).map (fun s => stratDiag fs s.1 s.2.1 s.2.2))) := by
  unfold autoDetect
  have h1 := runStrategies_fst fs (strategyList env) []
  have h2 := runStrategies_snd fs (strategyList env) []
  cases hr : runStrategies fs (strategyList env) [] with
  | mk res run =>
    rw [hr] at h1 h2
    simp only at h1 h2
    cases res with
    | ok p =>
      cases hs : specResolve ((strategyList env).map (fun s => stratDiag fs s.1 s.2.1 s.2.2)) with
      | ok q =>
        rw [hs] at h1
        simp only at h1
        cases h1
        exact ⟨rfl, h2⟩
      | error es =>
        rw [hs] at h1
        simp at h1
    | error errs =>
      cases hs : specResolve ((strategyList env).map (fun s => stratDiag fs s.1 s.2.1 s.2.2)) with
      | ok q =>
        rw [hs] at h1
        simp at h1
      | error es =>
        rw [hs] at h1
        simp only [List.nil_append] at h1
        cases h1
        exact ⟨rfl, h2⟩

/-- C5: when neither the cache nor a manual override yields a valid path,
`DetectBinaryPath` behaves exactly as the spec's first-success walk over
the strategies in the order service configuration, running process, PATH
search, conventional directories: it returns the first validated result
(caching it, earlier failures not surfaced), executes exactly the
strategies up to the winner, and only when every strategy fails returns the
aggregate report carrying one diagnostic per attempted strategy plus every
searched location. -/
theorem c5_resolve_contract (d : BinaryDetector) (fs : DetectFS) (env : DetectEnv)
    (hcache : d.cachedPath = "" ∨ validateBinaryPath fs d.cachedPath = false)
    (hcfg : d.configPath = "" ∨ validateBinaryPath fs d.configPath = false) :
    (detectBinaryPath d fs env).1 =
      Except.mapError
        (fun es => { strategyFailures := es, searchedCommonPaths := env.commonPathsList,
                     searchedPathDirs := env.pathDirs })
        (specResolve ((strategyList env).map (fun s => stratDiag fs s.1 s.2.1 s.2.2)))
    ∧ (detectBinaryPath d fs env).2.2 =
        ((strategyList env).map (fun s => s.1)).take
          (specAttemptCount ((strategyList env).map (fun s => stratDiag fs s.1 s.2.1 s.2.2)))
    ∧ (∀ p, (detectBinaryPath d fs env).1 = .ok p →
        (detectBinaryPath d fs env).2.1.cachedPath = p) := by
  obtain ⟨d2, heq⟩ := detect_eq_auto d fs env hcache hcfg
  obtain ⟨h1, h2⟩ := autoDetect_spec d2 fs env
  rw [heq]
  exact ⟨h1, h2, fun p hp => by
    have := detect_ok_state d fs env p (by rw [heq]; exact hp)
    rw [heq] at this
    exact this.1⟩

/-- Detector state, filesystem and strategy outcomes used by the detector
witnesses: empty cache, no override, only the conventional-directory
strategy finds the binary. -/
def detW : BinaryDetector := { cachedPath := "", configPath := "" }

/-- Witness filesystem for the detector claims: one executable file. -/
def detFSW : DetectFS := [("/usr/bin/sentinel", { isDir := false, exec := true })]

/-- Witness strategy outcomes: the first three strategies fail, the
conventional-directory probe returns the binary. -/
def detEnvW : DetectEnv :=
  { serviceConfig := .error "unit file not found"
    runningProcess := .error "no matching process"
    pathSearch := .error "binary not found in PATH"
    commonPathsScan := .ok "/usr/bin/sentinel"
    commonPathsList := ["/usr/local/bin/sentinel", "/usr/bin/sentinel"]
    pathDirs := ["/usr/local/bin", "/usr/bin"] }

/-- Witness for C5 at the concrete detector state with empty cache and no
override. -/
theorem c5_witness :
    (detectBinaryPath detW detFSW detEnvW).1 =
      Except.mapError
        (fun es => { strategyFailures := es, searchedCommonPaths := detEnvW.commonPathsList,
                     searchedPathDirs := detEnvW.pathDirs })
        (specResolve ((strategyList detEnvW).map (fun s => stratDiag detFSW s.1 s.2.1 s.2.2)))
    ∧ (detectBinaryPath detW detFSW detEnvW).2.2 =
        ((strategyList detEnvW).map (fun s => s.1)).take
          (specAttemptCount
            ((strategyList detEnvW).map (fun s => stratDiag detFSW s.1 s.2.1 s.2.2)))
    ∧ (∀ p, (detectBinaryPath detW detFSW detEnvW).1 = .ok p →
        (detectBinaryPath detW detFSW detEnvW).2.1.cachedPath = p) :=
  c5_resolve_contract detW detFSW detEnvW (Or.inl rfl) (Or.inl rfl)

/-- C6: after a successful resolve, a second resolve against an unchanged
filesystem — with any strategy environment, none of which is consulted —
returns the identical path from the cache, executes no detection strategy,
and leaves the detector state unchanged. -/
theorem c6_cache_property (d : BinaryDetector) (fs : DetectFS) (env1 env2 : DetectEnv)
    (p : String) (h : (detectBinaryPath d fs env1).1 = .ok p) :
    (detectBinaryPath (detectBinaryPath d fs env1).2.1 fs env2).1 = .ok p
    ∧ (detectBinaryPath (detectBinaryPath d fs env1).2.1 fs env2).2.2 = []
    ∧ (detectBinaryPath (detectBinaryPath d fs env1).2.1 fs env2).2.1 =
        (detectBinaryPath d fs env1).2.1 := by
  obtain ⟨hcp, hval⟩ := detect_ok_state d fs env1 p h
  have hne : p ≠ "" := validateBinaryPath_ne_empty fs p hval
  set d1 := (detectBinaryPath d fs env1).2.1 with hd1
  unfold detectBinaryPath
  rw [hcp, if_neg hne, if_pos hval]
  exact ⟨rfl, rfl, rfl⟩

/-- Witness for C6: the second resolve at the concrete detector state
returns the cached path with no strategy executed. -/
theorem c6_witness :
    (detectBinaryPath (detectBinaryPath detW detFSW detEnvW).2.1 detFSW detEnvW).1 =
      .ok "/usr/bin/sentinel"
    ∧ (detectBinaryPath (detectBinaryPath detW detFSW detEnvW).2.1 detFSW detEnvW).2.2 = []
    ∧ (detectBinaryPath (detectBinaryPath detW detFSW detEnvW).2.1 detFSW detEnvW).2.1 =
        (detectBinaryPath detW detFSW detEnvW).2.1 :=
  c6_cache_property detW detFSW detEnvW detEnvW "/usr/bin/sentinel" rfl

/-- C2: the backup file is deleted only by the success branch of
`performUpdate`; on every non-success outcome — in particular after a
rollback — the backup file is still present in the final filesystem and the
attempt deleted nothing. -/
theorem c2_backup_preserved (env : UpdEnv) (fs0 : FSys)
    (hpre : env.preflightOk = true)
    (hbin : fsExists fs0 env.resolveAtBackup = true)
    (h1 : env.resolveAtCleanup ≠ env.resolveAtBackup ++ ".backup")
    (h2 : env.resolveAtCleanup ++ ".old" ≠ env.resolveAtBackup ++ ".backup") :
    ((performUpdate env fs0).outcome ≠ .success →
       fsExists (performUpdate env fs0).fs (env.resolveAtBackup ++ ".backup") = true
       ∧ (performUpdate env fs0).backupDeleted = false)
    ∧ ((performUpdate env fs0).backupDeleted = true →
       (performUpdate env fs0).outcome = .success) := by
  rw [fsExists] at hbin
  cases hg : fsGet fs0 env.resolveAtBackup with
  | none =>
    rw [hg] at hbin
    simp at hbin
  | some data =>
    rw [performUpdate_eq_forward env fs0 data hpre hg]
    have hb : fsExists (fsWrite fs0 (env.resolveAtBackup ++ ".backup") data)
        (env.resolveAtBackup ++ ".backup") = true := by
      simp [fsExists, fsGet_fsWrite_self]
    exact forwardSteps_backup_facts env _ _ hb h1 h2

/-- Concrete attempt for the C2 witness: service uninstall fails after the
backup, rollback succeeds, the backup file survives. -/
def updEnvW : UpdEnv :=
  { preflightOk := true
    currentVersion := "v1.6.116"
    resolveAtBackup := "/usr/local/bin/sentinel"
    stopRes := .ok ()
    uninstallRes := .error "uninstall failed"
    resolveAtCleanup := "/usr/local/bin/sentinel"
    binRemoveOk := true
    oldRemoveOk := true
    compileRes := .ok "/root/go/bin/sentinel"
    newBinaryBytes := [9, 9]
    resolveAtInstall := "/usr/local/bin/sentinel"
    svcInstallRes := .ok ()
    startRes := .ok ()
    verifyPolls := fun _ => .ok true
    resolveAtRollback := "/usr/local/bin/sentinel"
    rbSvcInstallRes := .ok ()
    rbStartRes := .ok ()
    rbVerifyPolls := fun _ => .ok true
    backupRemoveOk := true }

/-- Initial filesystem for the orchestrator witnesses. -/
def updFSW : FSys := [("/usr/local/bin/sentinel", [1, 2, 3])]

/-- Witness for C2 at the concrete failing attempt. -/
theorem c2_witness :
    (((performUpdate updEnvW updFSW).outcome ≠ .success →
       fsExists (performUpdate updEnvW updFSW).fs
         (updEnvW.resolveAtBackup ++ ".backup") = true
       ∧ (performUpdate updEnvW updFSW).backupDeleted = false)
    ∧ ((performUpdate updEnvW updFSW).backupDeleted = true →
       (performUpdate updEnvW updFSW).outcome = .success)) :=
  c2_backup_preserved updEnvW updFSW rfl (by decide) (by decide) (by decide)

/-- C8: a cleanup failure never aborts the attempt or changes its outcome —
the attempt always proceeds to the compile step once stop and uninstall
succeeded, and the outcome is invariant under the cleanup deletion results;
cleanup itself deletes the resolved binary and its `.old` artifact while
leaving the `.backup` file untouched. -/
theorem c8_cleanup_best_effort :
    (∀ (env : UpdEnv) (fs0 : FSys), env.preflightOk = true →
       fsExists fs0 env.resolveAtBackup = true →
       env.stopRes = .ok () → env.uninstallRes = .ok () →
       (performUpdate env fs0).reachedCompile = true)
    ∧ (∀ (env : UpdEnv) (fs0 : FSys) (b o : Bool), env.preflightOk = true →
       fsExists fs0 env.resolveAtBackup = true →
       env.resolveAtCleanup ≠ env.resolveAtBackup ++ ".backup" →
       env.resolveAtCleanup ++ ".old" ≠ env.resolveAtBackup ++ ".backup" →
       (performUpdate { env with binRemoveOk := b, oldRemoveOk := o } fs0).outcome =
         (performUpdate env fs0).outcome)
    ∧ (∀ (fs : FSys) (p : String) (b o : Bool),
        fsGet (cleanupOldFiles fs p b o).1 (p ++ ".backup") = fsGet fs (p ++ ".backup"))
    ∧ (∀ (fs : FSys) (p : String),
        fsExists (cleanupOldFiles fs p true true).1 p = false
        ∧ fsExists (cleanupOldFiles fs p true true).1 (p ++ ".old") = false) := by
  refine ⟨?_, ?_, ?_, ?_⟩
  · intro env fs0 hpre hbin hs hu
    rw [fsExists] at hbin
    cases hg : fsGet fs0 env.resolveAtBackup with
    | none =>
      rw [hg] at hbin
      simp at hbin
    | some data =>
      rw [performUpdate_eq_forward env fs0 data hpre hg]
      exact forwardSteps_reachedCompile env _ _ hs hu
  · intro env fs0 b o hpre hbin h1 h2
    rw [fsExists] at hbin
    cases hg : fsGet fs0 env.resolveAtBackup with
    | none =>
      rw [hg] at hbin
      simp at hbin
    | some data =>
      rw [performUpdate_eq_forward env fs0 data hpre hg,
        performUpdate_eq_forward { env with binRemoveOk := b, oldRemoveOk := o } fs0 data hpre hg]
      have hb : fsExists (fsWrite fs0 (env.resolveAtBackup ++ ".backup") data)
          (env.resolveAtBackup ++ ".backup") = true := by
        simp [fsExists, fsGet_fsWrite_self]
      exact forwardSteps_outcome_congr { env with binRemoveOk := b, oldRemoveOk := o } env
        _ _ _ hb hb h1 h2 h1 h2 rfl rfl rfl rfl rfl rfl rfl rfl rfl rfl
  · intro fs p b o
    exact cleanup_fsGet_keep fs p b o (append_backup_ne_self p)
      (Ne.symm (append_old_ne_append_backup p p))
  · intro fs p
    unfold cleanupOldFiles
    dsimp only
    by_cases hp : fsExists fs p = true
    · simp only [hp, if_true, reduceIte]
      have hself : fsExists (fsRemove fs p) p = false := by
        simp [fsExists, fsGet_fsRemove_self]
      by_cases ho : fsExists (fsRemove fs p) (p ++ ".old") = true
      · simp only [ho, if_true, reduceIte]
        constructor
        · rw [fsExists_fsRemove_ne (fun hq => append_old_ne_self p hq.symm)]
          exact hself
        · simp [fsExists, fsGet_fsRemove_self]
      · simp only [Bool.not_eq_true] at ho
        simp only [ho, Bool.false_eq_true, if_false]
        exact ⟨hself, trivial⟩

    · simp only [Bool.not_eq_true] at hp
      simp only [hp, Bool.false_eq_true, if_false]
      by_cases ho : fsExists fs (p ++ ".old") = true
      · simp only [ho, if_true, reduceIte]
        constructor
        · rw [fsExists_fsRemove_ne (fun hq => append_old_ne_self p hq.symm)]
          exact hp
        · simp [fsExists, fsGet_fsRemove_self]
      · simp only [Bool.not_eq_true] at ho
        simp only [ho, Bool.false_eq_true, if_false]
        exact ⟨hp, trivial⟩

/-- Concrete attempt for the C8 witness: cleanup deletions fail, the
attempt still reaches the compile step with the same outcome. -/
def updEnvW8 : UpdEnv :=
  { updEnvW with
    uninstallRes := .ok ()
    binRemoveOk := false
    oldRemoveOk := false
    startRes := .error "start failed" }

/-- Witness for C8 at the concrete attempt with injected cleanup
failures. -/
theorem c8_witness :
    (performUpdate updEnvW8 updFSW).reachedCompile = true
    ∧ (performUpdate { updEnvW8 with binRemoveOk := true, oldRemoveOk := true } updFSW).outcome =
        (performUpdate updEnvW8 updFSW).outcome
    ∧ fsGet (cleanupOldFiles updFSW "/usr/local/bin/sentinel" false false).1
        ("/usr/local/bin/sentinel" ++ ".backup") =
      fsGet updFSW ("/usr/local/bin/sentinel" ++ ".backup")
    ∧ (fsExists (cleanupOldFiles updFSW "/usr/local/bin/sentinel" true true).1
        "/usr/local/bin/sentinel" = false
       ∧ fsExists (cleanupOldFiles updFSW "/usr/local/bin/sentinel" true true).1
        ("/usr/local/bin/sentinel" ++ ".old") = false) :=
  ⟨c8_cleanup_best_effort.1 updEnvW8 updFSW rfl (by decide) rfl rfl,
   c8_cleanup_best_effort.2.1 updEnvW8 updFSW true true rfl (by decide) (by decide) (by decide),
   c8_cleanup_best_effort.2.2.1 updFSW "/usr/local/bin/sentinel" false false,
   c8_cleanup_best_effort.2.2.2 updFSW "/usr/local/bin/sentinel"⟩

/-- C7: `verifyMainAgentRunning` polls `IsRunning` at most 3 times
(`maxRetries = 3`) with one 2-second delay between consecutive attempts,
succeeds exactly when one of the first three polls observes the service
running, and its failure makes `performUpdate` invoke rollback when every
earlier step succeeded. -/
theorem c7_verify_contract :
    maxRetries = 3 ∧ retryDelaySeconds = 2
    ∧ (∀ polls : Nat → Except String Bool, (verifyMainAgentRunning polls).pollCount ≤ 3)
    ∧ (∀ polls : Nat → Except String Bool,
        (verifyMainAgentRunning polls).sleepCount =
          (verifyMainAgentRunning polls).pollCount - 1)
    ∧ (∀ polls : Nat → Except String Bool,
        ((verifyMainAgentRunning polls).result = .ok () ↔
          ∃ k, 1 ≤ k ∧ k ≤ 3 ∧ polls k = .ok true))
    ∧ (∀ (env : UpdEnv) (fs0 : FSys), env.preflightOk = true →
        fsExists fs0 env.resolveAtBackup = true →
        env.stopRes = .ok () → env.uninstallRes = .ok () →
        (∃ p, env.compileRes = .ok p) →
        env.svcInstallRes = .ok () → env.startRes = .ok () →
        (verifyMainAgentRunning env.verifyPolls).result ≠ .ok () →
        (performUpdate env fs0).rollbackInvoked = true) := by
  refine ⟨rfl, rfl, ?_, ?_, ?_, ?_⟩
  · intro polls
    exact verifyAux_pollCount_le polls 3 1
  · intro polls
    exact verifyAux_sleepCount polls 3 1
  · intro polls
    have base := verifyAux_ok_iff polls 3 1
    constructor
    · intro h
      obtain ⟨k, hk1, hk2, hk3⟩ := base.mp h
      exact ⟨k, hk1, by omega, hk3⟩
    · rintro ⟨k, hk1, hk2, hk3⟩
      exact base.mpr ⟨k, hk1, by omega, hk3⟩
  · intro env fs0 hpre hbin hs hu hc hi hst hv
    rw [fsExists] at hbin
    cases hg : fsGet fs0 env.resolveAtBackup with
    | none =>
      rw [hg] at hbin
      simp at hbin
    | some data =>
      rw [performUpdate_eq_forward env fs0 data hpre hg]
      obtain ⟨p, hp⟩ := hc
      exact forwardSteps_rollbackInvoked_of_verify_fail env _ _ hs hu p hp hi hst hv

/-- Concrete attempt for the C7 witness: every forward step succeeds except
verification, whose three polls all observe "not running". -/
def updEnvW7 : UpdEnv :=
  { updEnvW with
    uninstallRes := .ok ()
    verifyPolls := fun _ => .ok false }

/-- Witness for C7: the verify failure at the concrete attempt makes the
orchestrator invoke rollback. -/
theorem c7_witness :
    (performUpdate updEnvW7 updFSW).rollbackInvoked = true :=
  c7_verify_contract.2.2.2.2.2 updEnvW7 updFSW rfl (by decide) rfl rfl
    ⟨"/root/go/bin/sentinel", rfl⟩ rfl rfl
    (by
      intro h
      have hres : (verifyMainAgentRunning updEnvW7.verifyPolls).result =
          Except.error "service not running after 3 verification attempts" := rfl
      rw [hres] at h
      exact Except.noConfusion h)

/-- Failing input for C1: the resolver returns /usr/local/bin/sentinel when
the backup is taken, but /opt/sentinelgo/sentinel when rollback re-resolves
(the cache was invalidated after the install step); the service start
failure then triggers rollback. -/
def updEnvC1 : UpdEnv :=
  { preflightOk := true
    currentVersion := "v1.6.116"
    resolveAtBackup := "/usr/local/bin/sentinel"
    stopRes := .ok ()
    uninstallRes := .ok ()
    resolveAtCleanup := "/usr/local/bin/sentinel"
    binRemoveOk := true
    oldRemoveOk := true
    compileRes := .ok "/root/go/bin/sentinel"
    newBinaryBytes := [9, 9]
    resolveAtInstall := "/usr/local/bin/sentinel"
    svcInstallRes := .ok ()
    startRes := .error "failed to start service"
    verifyPolls := fun _ => .ok true
    resolveAtRollback := "/opt/sentinelgo/sentinel"
    rbSvcInstallRes := .ok ()
    rbStartRes := .ok ()
    rbVerifyPolls := fun _ => .ok true
    backupRemoveOk := true }

/-- Initial filesystem for the C1 failing input: the original binary bytes
[1, 2, 3] live at the backup-time path. -/
def updFSC1 : FSys := [("/usr/local/bin/sentinel", [1, 2, 3])]

/-- C1: evaluation of `performUpdate` at the failing input.  The backup was
taken of the binary at /usr/local/bin/sentinel, yet the successful rollback
wrote the backed-up bytes [1, 2, 3] to the freshly re-resolved path
/opt/sentinelgo/sentinel, leaving the new binary's bytes [9, 9] at the
original path — `rollback` targets `paths.GetMainAgentBinaryPath()` at
rollback time and `BackupInfo` records no original binary path, so backup
followed by restore does not reproduce the original bytes at the original
path. -/
theorem c1_rollback_path_drift :
    updEnvC1.resolveAtBackup = "/usr/local/bin/sentinel"
    ∧ fsGet updFSC1 "/usr/local/bin/sentinel" = some [1, 2, 3]
    ∧ (performUpdate updEnvC1 updFSC1).outcome = .rolledBack
    ∧ fsGet (performUpdate updEnvC1 updFSC1).fs "/opt/sentinelgo/sentinel" = some [1, 2, 3]
    ∧ fsGet (performUpdate updEnvC1 updFSC1).fs "/usr/local/bin/sentinel" = some [9, 9] := by
  refine ⟨rfl, rfl, ?_, ?_, ?_⟩ <;> decide
